import Mathlib

/-!
Verification of the pagmo2 concurrent-evolution core against its specification.

The decision-vector / fitness-vector component type `double` is modelled by `Int`
(exact arithmetic); all identities proved here are structural forwarding facts
that do not depend on the numeric type.

The `translate` meta-problem is embedded directly from
`src/include/pagmo/problems/translate.hpp`.  The island / archipelago scheduler
(`island.hpp`, `archipelago.hpp`, `population.hpp`, `rng.hpp`) is not present
under `src/`, only its tests are; those parts are modelled from the
specification, as a sequential state machine in which `evolve` enqueues
requests without running the worker (the back-to-back submission schedule) and
`wait`/`get` drain the queue in FIFO order.
-/

namespace Pagmo

/-- Thread safety levels, embedded from `src/include/pagmo/threading.hpp`:
`none` (concurrent operations on distinct instances are unsafe) and `basic`. -/
inductive thread_safety where
  | none
  | basic
deriving DecidableEq, Repr

/-- Modelled from the spec: the `problem` type-erasure interface (`problem.hpp`
is not under `src/`; `translate.hpp` consumes it).  Only the capabilities the
claims need are kept: decision dimension `get_nx`, `fitness`, `get_bounds`,
`gradient`, `hessians` (spec section 6). -/
structure problem where
  get_nx : Nat
  fitness : List Int → List Int
  get_bounds : List Int × List Int
  gradient : List Int → List Int
  hessians : List Int → List (List Int)

/-- The translate meta-problem, embedded from `translate.hpp`: it stores the
inner problem and the translation vector `m_translation`. -/
structure translate where
  inner : problem
  m_translation : List Int

/-- Constructor from UDP and translation vector, embedded from `translate.hpp`
lines 84-93: it throws `std::invalid_argument` exactly when the length of the
translation vector differs from the problem dimension `get_nx`. -/
def translate.make (p : problem) (translation : List Int) : Except String translate :=
  if translation.length ≠ p.get_nx then
    Except.error ("Length of shift vector is: " ++ toString translation.length
      ++ " while the problem dimension is: " ++ toString p.get_nx)
  else
    Except.ok ⟨p, translation⟩

/-- Embedded from `translate.hpp` lines 245-254: componentwise subtraction of
the translation vector (`std::transform` with `std::minus`). -/
def translate.translate_back (t : translate) (x : List Int) : List Int :=
  List.zipWith (fun a b => a - b) x t.m_translation

/-- Embedded from `translate.hpp` lines 256-262: componentwise addition of
the translation vector (`std::transform` with `std::plus`). -/
def translate.apply_translation (t : translate) (x : List Int) : List Int :=
  List.zipWith (fun a b => a + b) x t.m_translation

/-- Embedded from `translate.hpp` lines 106-110: fitness is forwarded to the
inner UDP after de-shifting the decision vector. -/
def translate.fitness (t : translate) (x : List Int) : List Int :=
  t.inner.fitness (t.translate_back x)

/-- Embedded from `translate.hpp` lines 121-127: the box bounds are the inner
UDP's bounds, shifted by the translation vector. -/
def translate.get_bounds (t : translate) : List Int × List Int :=
  (t.apply_translation t.inner.get_bounds.1, t.apply_translation t.inner.get_bounds.2)

/-- Embedded from `translate.hpp` lines 140-144: gradient forwarded on the
de-shifted point. -/
def translate.gradient (t : translate) (x : List Int) : List Int :=
  t.inner.gradient (t.translate_back x)

/-- Embedded from `translate.hpp` lines 157-161: hessians forwarded on the
de-shifted point. -/
def translate.hessians (t : translate) (x : List Int) : List (List Int) :=
  t.inner.hessians (t.translate_back x)

/-- Embedded from `translate.hpp` lines 197-200: accessor for the stored
translation vector. -/
def translate.get_translation (t : translate) : List Int :=
  t.m_translation

/-- Modelled from the spec: Population (spec section 3) — a problem bundled with
the individuals (decision vectors `xs`, fitness vectors `fs`) and a random
seed (`population.hpp` is not under `src/`).  The contained problem is
represented by the attributes the island scheduler observes: its name and its
thread-safety capability. -/
structure Population where
  prob_name : String
  prob_ts : thread_safety
  xs : List (List Int)
  fs : List (List Int)
  seed : Nat
deriving DecidableEq, Repr

/-- Modelled from the spec: Algorithm (spec section 3) — a pure function from
Population to Population, plus a name and a thread-safety capability
(`algorithm.hpp` is not under `src/`). -/
structure Algorithm where
  name : String
  evolve : Population → Population
  ts : thread_safety

/-- Modelled from the spec: the errors remembered by a queued island task
(spec section 7) — queue overflow and thread-safety violation. -/
inductive island_error where
  | queue_overflow
  | thread_safety_violation
deriving DecidableEq, Repr

/-- The first-encountered error is kept: a remembered error is never
overwritten by a later one (spec section 4.2: `get()` raises exactly one
error, the first encountered). -/
def keep_first (e : Option island_error) (new : island_error) : Option island_error :=
  match e with
  | Option.some x => Option.some x
  | Option.none => Option.some new

/-- Modelled from the spec: Island (spec sections 3, 4.2) — one Algorithm, one
Population, the bounded FIFO task queue and the remembered error
(`island.hpp` is not under `src/`).  Every queued request is identical (run
the installed algorithm's evolve on the current population), so the queue is
represented by the number of not-yet-started requests. -/
structure Island where
  algo : Algorithm
  pop : Population
  queue : Nat
  err : Option island_error

/-- Modelled from the spec: the fixed queue capacity, a small constant — the
spec (sections 4.2, 9) directs implementers to pick a small fixed constant,
e.g. 2; the exact value is declared unobservable beyond "more than a small
constant pending eventually overflows". -/
def queue_capacity : Nat := 2

/-- Modelled from the spec (section 4.2): enqueue one evolution request; if
the queue already holds more than the fixed capacity of not-yet-started
requests, the request is dropped and a queue-overflow error is remembered
instead (non-blocking backpressure). -/
def Island.enqueue1 (s : Island) : Island :=
  if queue_capacity < s.queue then
    { s with err := keep_first s.err island_error.queue_overflow }
  else
    { s with queue := s.queue + 1 }

/-- Modelled from the spec (section 4.2): `evolve(n)` enqueues `n` evolution
requests and returns immediately, without running the worker (the
back-to-back submission schedule). -/
def Island.evolveN (s : Island) : Nat → Island
  | 0 => s
  | Nat.succ k => (s.evolveN k).enqueue1

/-- The runtime thread-safety guard predicate: the task may proceed only if
both the installed Algorithm and the Problem inside the Population declare
`basic` thread safety (spec section 4.2, safety policy). -/
def Island.ts_ok (s : Island) : Bool :=
  match s.algo.ts, s.pop.prob_ts with
  | thread_safety.basic, thread_safety.basic => true
  | _, _ => false

/-- Modelled from the spec (sections 4.2, 5): the single worker pops the front
request; if the thread-safety guard passes it installs
`Algorithm::evolve(current Population)` as the new Population, otherwise it
leaves the Population untouched and remembers a thread-safety-violation
error. -/
def Island.worker_step (s : Island) : Island :=
  if s.queue = 0 then
    s
  else if s.ts_ok then
    { s with queue := s.queue - 1, pop := s.algo.evolve s.pop }
  else
    { s with queue := s.queue - 1, err := keep_first s.err island_error.thread_safety_violation }

/-- Run the worker for `k` steps (used with `k` equal to the queue length). -/
def Island.drain_steps : Nat → Island → Island
  | 0, s => s
  | Nat.succ k, s => Island.drain_steps k s.worker_step

/-- Drain the queue: the worker processes every pending request in FIFO
order. -/
def Island.drain (s : Island) : Island :=
  Island.drain_steps s.queue s

/-- Modelled from the spec (section 4.2): `wait()` blocks until the queue
drains; it never raises and does not consume the remembered error. -/
def Island.wait (s : Island) : Island :=
  s.drain

/-- Modelled from the spec (section 4.2): `get()` blocks like `wait()` and
additionally raises the remembered error (if any) exactly once, clearing it. -/
def Island.get (s : Island) : Island × Option island_error :=
  ({ s.drain with err := Option.none }, (s.drain).err)

/-- Modelled from the spec (section 4.2): `busy()` is true iff at least one
task is outstanding. -/
def Island.busy (s : Island) : Bool :=
  decide (s.queue ≠ 0)

/-- Modelled from the spec (section 4.2): the pair (Algorithm's capability,
Problem's capability) of the currently installed algorithm/population. -/
def Island.get_thread_safety (s : Island) : thread_safety × thread_safety :=
  (s.algo.ts, s.pop.prob_ts)

/-- Modelled from the spec (section 6): the island's textual rendering
summarizes algorithm name, problem name, population size and busy state,
reproducibly from the same logical state. -/
def Island.to_string (s : Island) : String :=
  "Island: algorithm: " ++ s.algo.name ++ ", problem: " ++ s.pop.prob_name
    ++ ", population size: " ++ toString s.pop.xs.length
    ++ ", busy: " ++ (if s.busy then "true" else "false")

/-- Modelled from the spec (section 6): the persisted state of an island — the
Algorithm and the Population; transient state (pending queue, remembered
error) is not part of the archive. -/
structure SerializedIsland where
  algo : Algorithm
  pop : Population

/-- Serialize an island (spec section 6, persisted state layout). -/
def Island.serialize (s : Island) : SerializedIsland :=
  ⟨s.algo, s.pop⟩

/-- Deserialize into a fresh island: restored Algorithm and Population, empty
queue, no remembered error. -/
def SerializedIsland.deserialize (d : SerializedIsland) : Island :=
  ⟨d.algo, d.pop, 0, Option.none⟩

/-- Modelled from the spec: Archipelago (spec sections 3, 4.3) — an ordered
sequence of islands (`archipelago.hpp` is not under `src/`). -/
structure Archipelago where
  islands : List Island

/-- Island count (spec section 4.3). -/
def Archipelago.size (a : Archipelago) : Nat :=
  a.islands.length

/-- Modelled from the spec (section 4.3): the mutable `operator[]` — returns
island `i`, raising `std::out_of_range` for `i >= size()`. -/
def Archipelago.op_index (a : Archipelago) (i : Nat) : Except String Island :=
  if h : i < a.islands.length then
    Except.ok (a.islands.get ⟨i, h⟩)
  else
    Except.error "out_of_range"

/-- Modelled from the spec (section 4.3): the const overload of `operator[]`,
checking bounds identically to the mutable accessor. -/
def Archipelago.op_index_const (a : Archipelago) (i : Nat) : Except String Island :=
  if h : i < a.islands.length then
    Except.ok (a.islands.get ⟨i, h⟩)
  else
    Except.error "out_of_range"

/-- Modelled from the spec (section 4.3): `evolve(n)` calls `evolve(n)` on
every island, fully independent per island. -/
def Archipelago.evolveN (a : Archipelago) (n : Nat) : Archipelago :=
  ⟨a.islands.map (fun s => s.evolveN n)⟩

/-- Modelled from the spec (section 4.3): `wait()` on every island. -/
def Archipelago.wait (a : Archipelago) : Archipelago :=
  ⟨a.islands.map Island.wait⟩

/-- The first remembered error among the per-island outcomes (the
archipelago-level `get()` reports the first error it encountered). -/
def first_err : List (Option island_error) → Option island_error
  | [] => Option.none
  | Option.some e :: _ => Option.some e
  | Option.none :: rest => first_err rest

/-- Modelled from the spec (section 4.3): `get()` visits every island, draining
every per-island remembered error, and reports the first error encountered. -/
def Archipelago.get (a : Archipelago) : Archipelago × Option island_error :=
  (⟨(a.islands.map Island.get).map Prod.fst⟩,
    first_err ((a.islands.map Island.get).map Prod.snd))

/-- Modelled from the spec (section 4.3): `busy()` is true iff any island is
busy. -/
def Archipelago.busy (a : Archipelago) : Bool :=
  a.islands.any Island.busy

/-- Modelled from the spec (section 4.3): moving transfers ownership of all
islands to the destination and leaves the source empty. -/
def Archipelago.move_from (a : Archipelago) : Archipelago × Archipelago :=
  (a, ⟨[]⟩)

/-- Modelled from the spec (sections 4.3, 6): default seeding for archipelago
construction (`rng.hpp` is not under `src/`) — when no explicit seed is
given, each island draws the next value from a monotonically advancing seed
counter, so that default seeding never collides across islands of the same
archipelago. -/
def default_seed_draw (counter : Nat) : Nat × Nat :=
  (counter, counter + 1)

/-- Build `n` islands replicating one algorithm/problem template, each with a
population seeded from successive draws of the default seed source. -/
def make_islands (algo : Algorithm) (pop_template : Population) : Nat → Nat → List Island
  | 0, _ => []
  | Nat.succ k, counter =>
    ⟨algo, { pop_template with seed := (default_seed_draw counter).1 }, 0, Option.none⟩
      :: make_islands algo pop_template k (default_seed_draw counter).2

/-- Modelled from the spec (section 6): the archipelago constructor from
(island count, algorithm, problem template, no explicit seed). -/
def Archipelago.construct (n : Nat) (algo : Algorithm) (pop_template : Population)
    (counter : Nat) : Archipelago :=
  ⟨make_islands algo pop_template n counter⟩

/-- Textual rendering of an archipelago: size, then every island's summary. -/
def Archipelago.to_string (a : Archipelago) : String :=
  "Archipelago of size " ++ toString a.size ++ ":\n"
    ++ String.intercalate "\n" (a.islands.map Island.to_string)

/-- Persisted state of an archipelago: the persisted state of each island. -/
structure SerializedArchipelago where
  islands : List SerializedIsland

/-- Serialize an archipelago. -/
def Archipelago.serialize (a : Archipelago) : SerializedArchipelago :=
  ⟨a.islands.map Island.serialize⟩

/-- Deserialize into a fresh archipelago. -/
def SerializedArchipelago.deserialize (d : SerializedArchipelago) : Archipelago :=
  ⟨d.islands.map SerializedIsland.deserialize⟩

/-- A concrete thread-safe stand-in algorithm (in the role of `de`) whose
evolve shifts every decision-vector component by one. -/
def algo_fixture : Algorithm :=
  ⟨"DE", fun p => { p with xs := p.xs.map (fun x => x.map (fun a => a + 1)) },
    thread_safety.basic⟩

/-- A concrete population over a thread-safe problem (in the role of
`rosenbrock`), three individuals, seed 123. -/
def pop_fixture : Population :=
  ⟨"Rosenbrock", thread_safety.basic, [[0, 0], [1, 1], [2, 2]], [[0], [1], [2]], 123⟩

/-- A fresh, idle island over the concrete fixtures. -/
def island_fixture : Island :=
  ⟨algo_fixture, pop_fixture, 0, Option.none⟩

/-- A stand-in algorithm declaring no thread safety (in the role of the test's
`algo_01`). -/
def algo_fixture_ts_none : Algorithm :=
  ⟨"algo_01", fun p => p, thread_safety.none⟩

/-- A fresh, idle island whose algorithm declares `none` thread safety. -/
def island_fixture_ts_none : Island :=
  ⟨algo_fixture_ts_none, pop_fixture, 0, Option.none⟩

/-- The C2 scenario: four back-to-back `evolve(10)` submissions on a fresh
island with the default queue capacity. -/
def island_after_4x10 : Island :=
  (((island_fixture.evolveN 10).evolveN 10).evolveN 10).evolveN 10

/-- A concrete two-island archipelago over the fixtures. -/
def archi_fixture : Archipelago :=
  ⟨[island_fixture, island_fixture_ts_none]⟩

/-- Enqueueing never changes the installed algorithm. -/
lemma enqueue1_algo (s : Island) : (s.enqueue1).algo = s.algo := by
  unfold Island.enqueue1
  split <;> rfl

/-- Enqueueing never changes the installed population. -/
lemma enqueue1_pop (s : Island) : (s.enqueue1).pop = s.pop := by
  unfold Island.enqueue1
  split <;> rfl

/-- If no error is remembered after an enqueue, there was none before and the
request was accepted (queue grew by one). -/
lemma enqueue1_err_none {s : Island} (h : (s.enqueue1).err = Option.none) :
    s.err = Option.none ∧ (s.enqueue1).queue = s.queue + 1 := by
  by_cases hc : queue_capacity < s.queue
  · exfalso
    have hd : s.enqueue1 = { s with err := keep_first s.err island_error.queue_overflow } := by
      unfold Island.enqueue1
      rw [if_pos hc]
    rw [hd] at h
    cases he : s.err <;> simp [keep_first, he] at h
  · have hd : s.enqueue1 = { s with queue := s.queue + 1 } := by
      unfold Island.enqueue1
      rw [if_neg hc]
    rw [hd] at h ⊢
    exact ⟨h, rfl⟩

/-- After an enqueue the queue is nonempty. -/
lemma enqueue1_queue_pos (s : Island) : 1 ≤ (s.enqueue1).queue := by
  have hcap : queue_capacity = 2 := rfl
  unfold Island.enqueue1
  split
  · next hc =>
      rw [hcap] at hc
      show 1 ≤ s.queue
      omega
  · show 1 ≤ s.queue + 1
    omega

/-- Submitting requests never changes the installed algorithm. -/
lemma evolveN_algo (s : Island) : ∀ n, (s.evolveN n).algo = s.algo
  | 0 => rfl
  | Nat.succ k => by
    rw [Island.evolveN, enqueue1_algo, evolveN_algo s k]

/-- Submitting requests never changes the installed population. -/
lemma evolveN_pop (s : Island) : ∀ n, (s.evolveN n).pop = s.pop
  | 0 => rfl
  | Nat.succ k => by
    rw [Island.evolveN, enqueue1_pop, evolveN_pop s k]

/-- If no error is remembered after submitting `n` requests, there was none
before and all `n` requests were accepted into the queue. -/
lemma evolveN_err_none {s : Island} : ∀ {n : Nat}, (s.evolveN n).err = Option.none →
    s.err = Option.none ∧ (s.evolveN n).queue = s.queue + n := by
  intro n
  induction n with
  | zero => exact fun h => ⟨h, rfl⟩
  | succ k ih =>
    intro h
    have h1 := enqueue1_err_none (s := s.evolveN k) h
    have h2 := ih h1.1
    refine ⟨h2.1, ?_⟩
    have h3 : (s.evolveN (k + 1)).queue = (s.evolveN k).queue + 1 := h1.2
    omega

/-- The worker step consumes one request when any is pending. -/
lemma worker_step_queue (s : Island) : (s.worker_step).queue = s.queue - 1 := by
  unfold Island.worker_step
  split
  · next h => omega
  · split <;> rfl

/-- The worker step never clears a remembered error. -/
lemma worker_step_err_some {s : Island} {e : island_error} (h : s.err = Option.some e) :
    (s.worker_step).err = Option.some e := by
  unfold Island.worker_step
  split
  · exact h
  · split
    · exact h
    · show keep_first s.err island_error.thread_safety_violation = Option.some e
      rw [h]
      rfl

/-- Draining never clears a remembered error. -/
lemma drain_steps_err_some : ∀ (k : Nat) (s : Island) (e : island_error),
    s.err = Option.some e → (Island.drain_steps k s).err = Option.some e
  | 0, _, _, h => h
  | Nat.succ k, s, e, h => drain_steps_err_some k s.worker_step e (worker_step_err_some h)

/-- Draining a queue of length `k` in `k` worker steps empties it. -/
lemma drain_steps_queue : ∀ (k : Nat) (s : Island), s.queue = k →
    (Island.drain_steps k s).queue = 0
  | 0, _, h => h
  | Nat.succ k, s, h => by
    have hw : (s.worker_step).queue = k := by
      rw [worker_step_queue, h]
      omega
    exact drain_steps_queue k s.worker_step hw

/-- If draining a queue of length `k` ends with no remembered error, then every
step passed the thread-safety guard, so the final population is the `k`-fold
application of the installed algorithm's evolve, each application consuming
the population produced by its immediate predecessor; moreover no error was
remembered beforehand. -/
lemma drain_steps_ok : ∀ (k : Nat) (s : Island), s.queue = k →
    (Island.drain_steps k s).err = Option.none →
    (Island.drain_steps k s).pop = s.algo.evolve^[k] s.pop ∧ s.err = Option.none
  | 0, _, _, h => ⟨rfl, h⟩
  | Nat.succ k, s, hq, h => by
    have hne : ¬s.queue = 0 := by omega
    by_cases hts : s.ts_ok = true
    · have hstep : s.worker_step = { s with queue := k, pop := s.algo.evolve s.pop } := by
        unfold Island.worker_step
        rw [if_neg hne, if_pos hts]
        simp [hq]
      have hrw : Island.drain_steps (Nat.succ k) s = Island.drain_steps k s.worker_step := rfl
      rw [hrw, hstep] at h ⊢
      obtain ⟨hpop, herr⟩ :=
        drain_steps_ok k { s with queue := k, pop := s.algo.evolve s.pop } rfl h
      refine ⟨?_, herr⟩
      rw [hpop]
      exact (Function.iterate_succ_apply s.algo.evolve k s.pop).symm
    · exfalso
      have hstep : s.worker_step
          = { s with queue := k, err := keep_first s.err island_error.thread_safety_violation } := by
        unfold Island.worker_step
        rw [if_neg hne, if_neg hts]
        simp [hq]
      have hsome : ∃ e, (s.worker_step).err = Option.some e := by
        rw [hstep]
        cases he : s.err with
        | none => exact ⟨island_error.thread_safety_violation, by simp [keep_first, he]⟩
        | some v => exact ⟨v, by simp [keep_first, he]⟩
      obtain ⟨e, he⟩ := hsome
      have h2 := drain_steps_err_some k s.worker_step e he
      have hrw : Island.drain_steps (Nat.succ k) s = Island.drain_steps k s.worker_step := rfl
      rw [hrw, h2] at h
      exact Option.noConfusion h

/-- Draining empties the queue. -/
lemma drain_queue (s : Island) : (s.drain).queue = 0 :=
  drain_steps_queue s.queue s rfl

/-- Draining with no final remembered error applies evolve once per queued
request. -/
lemma drain_ok {s : Island} (h : (s.drain).err = Option.none) :
    (s.drain).pop = s.algo.evolve^[s.queue] s.pop ∧ s.err = Option.none :=
  drain_steps_ok s.queue s rfl h

end Pagmo

namespace Pagmo

/-- C7: constructing a translate meta-problem from a problem `p` and vector `v`
succeeds iff the length of `v` equals `p`'s decision dimension `get_nx` (it
raises `std::invalid_argument` exactly when they differ), and on success the
stored translation returned by `get_translation` equals `v`. -/
theorem translate_construction_checks_dimension (p : problem) (v : List Int) :
    ((translate.make p v).isOk = true ↔ v.length = p.get_nx)
      ∧ (∀ t : translate, translate.make p v = Except.ok t → t.get_translation = v) := by
  constructor
  · unfold translate.make
    split
    · simp_all [Except.isOk, Except.toBool]
    · simp_all [Except.isOk, Except.toBool]
  · intro t ht
    unfold translate.make at ht
    split at ht
    · exact absurd ht (by simp)
    · cases ht
      rfl

/-- Witness for C7 at a concrete problem of dimension 2 and vector of length 2
(success case, translation recovered) and the failure case at length 1. -/
theorem translate_construction_checks_dimension_witness :
    ((translate.make ⟨2, id, ([0, 0], [1, 1]), id, fun _ => []⟩ [3, 4]).isOk = true)
      ∧ ((⟨⟨2, id, ([0, 0], [1, 1]), id, fun _ => []⟩, [3, 4]⟩ : translate).get_translation
          = [3, 4]) := by
  refine ⟨?_, ?_⟩
  · exact (translate_construction_checks_dimension
      ⟨2, id, ([0, 0], [1, 1]), id, fun _ => []⟩ [3, 4]).1.mpr rfl
  · exact (translate_construction_checks_dimension
      ⟨2, id, ([0, 0], [1, 1]), id, fun _ => []⟩ [3, 4]).2
      ⟨⟨2, id, ([0, 0], [1, 1]), id, fun _ => []⟩, [3, 4]⟩ (by rfl)

/-- C10: for a translate meta-problem successfully built from `p` and `v`,
fitness at `x` equals `p`'s fitness at the componentwise difference `x - v`,
the bounds are `p`'s bounds shifted componentwise by `+v`, and gradient and
hessians are forwarded on the de-shifted point `x - v`. -/
theorem translate_forwards_on_shifted_point (p : problem) (v : List Int)
    (t : translate) (x : List Int) (ht : translate.make p v = Except.ok t) :
    t.fitness x = p.fitness (List.zipWith (fun a b => a - b) x v)
      ∧ t.get_bounds = (List.zipWith (fun a b => a + b) p.get_bounds.1 v,
          List.zipWith (fun a b => a + b) p.get_bounds.2 v)
      ∧ t.gradient x = p.gradient (List.zipWith (fun a b => a - b) x v)
      ∧ t.hessians x = p.hessians (List.zipWith (fun a b => a - b) x v) := by
  unfold translate.make at ht
  split at ht
  · exact absurd ht (by simp)
  · cases ht
    refine ⟨rfl, ?_, rfl, rfl⟩
    unfold translate.get_bounds translate.apply_translation
    rfl

/-- Witness for C10: a concrete dimension-2 problem whose fitness sums the
components, translated by `[1, 2]`, evaluated at `[10, 20]`. -/
theorem translate_forwards_on_shifted_point_witness :
    (⟨⟨2, fun x => [x.sum], ([0, 0], [5, 6]), fun x => x, fun x => [x]⟩, [1, 2]⟩
        : translate).fitness [10, 20]
        = (fun x : List Int => [x.sum]) (List.zipWith (fun a b => a - b) [10, 20] [1, 2])
      ∧ (⟨⟨2, fun x => [x.sum], ([0, 0], [5, 6]), fun x => x, fun x => [x]⟩, [1, 2]⟩
        : translate).get_bounds
        = (List.zipWith (fun a b => a + b) [0, 0] [1, 2],
           List.zipWith (fun a b => a + b) [5, 6] [1, 2]) := by
  have h := translate_forwards_on_shifted_point
    ⟨2, fun x => [x.sum], ([0, 0], [5, 6]), fun x => x, fun x => [x]⟩ [1, 2]
    ⟨⟨2, fun x => [x.sum], ([0, 0], [5, 6]), fun x => x, fun x => [x]⟩, [1, 2]⟩
    [10, 20] rfl
  exact ⟨h.1, h.2.1⟩

end Pagmo

namespace Pagmo

/-- C1: for every island that is idle with no remembered error, after
`evolve(n)` followed by `get()` raising nothing (in particular no intervening
queue overflow), the island's Population equals the result of applying the
installed algorithm's evolve exactly `n` times in submission order to the
pre-call Population, each request observing the Population produced by its
immediate predecessor. -/
theorem island_evolve_then_get_runs_n_evolves (s : Island) (n : Nat)
    (hq : s.queue = 0)
    (hok : (Island.get (s.evolveN n)).2 = Option.none) :
    (Island.get (s.evolveN n)).1.pop = s.algo.evolve^[n] s.pop := by
  have hdrain : ((s.evolveN n).drain).err = Option.none := hok
  obtain ⟨hpop, herr⟩ := drain_ok hdrain
  obtain ⟨-, hqueue⟩ := evolveN_err_none herr
  show ((s.evolveN n).drain).pop = _
  rw [hpop, evolveN_algo s n, evolveN_pop s n, hqueue, hq, Nat.zero_add]

/-- Witness for C1 at the concrete fixture island with `n = 2`. -/
theorem island_evolve_then_get_runs_n_evolves_witness :
    island_fixture.queue = 0 ∧ island_fixture.err = Option.none
      ∧ (Island.get (island_fixture.evolveN 2)).2 = Option.none
      ∧ (Island.get (island_fixture.evolveN 2)).1.pop
          = island_fixture.algo.evolve^[2] island_fixture.pop :=
  ⟨rfl, rfl, rfl, island_evolve_then_get_runs_n_evolves island_fixture 2 rfl rfl⟩

set_option maxRecDepth 4000 in
/-- C2: issuing `evolve(10)` four times back-to-back on a fresh island with the
default queue capacity, then calling `get()` once, raises exactly one error
(the queue overflow); a second immediate `get()` with no new tasks raises
none; a `wait()` after that returns normally, leaving no remembered error and
an idle island. -/
theorem island_overflow_error_consumed_once :
    (island_after_4x10.get).2 = Option.some island_error.queue_overflow
      ∧ ((island_after_4x10.get).1.get).2 = Option.none
      ∧ (((island_after_4x10.get).1.get).1.wait).err = Option.none
      ∧ (((island_after_4x10.get).1.get).1.wait).busy = false :=
  ⟨rfl, rfl, rfl, rfl⟩

/-- C3: on an idle island with no remembered error, if the installed Algorithm
or the Population's Problem declares thread safety `none`, the task enqueued
by `evolve()` does not run the contained evolve (the Population is unchanged)
and records an error which the next `get()` raises; when both declare
`basic`, `evolve()` followed by `get()` completes without raising. -/
theorem island_thread_safety_guard (s : Island)
    (hq : s.queue = 0) (he : s.err = Option.none) :
    ((s.algo.ts = thread_safety.none ∨ s.pop.prob_ts = thread_safety.none) →
        ((s.evolveN 1).get).2 = Option.some island_error.thread_safety_violation
          ∧ ((s.evolveN 1).get).1.pop = s.pop)
      ∧ (s.algo.ts = thread_safety.basic → s.pop.prob_ts = thread_safety.basic →
          ((s.evolveN 1).get).2 = Option.none) := by
  obtain ⟨⟨aname, aev, ats⟩, ⟨pname, pts, xs, fs, sd⟩, q, er⟩ := s
  replace hq : q = 0 := hq
  replace he : er = Option.none := he
  subst hq
  subst he
  cases ats <;> cases pts <;> refine ⟨fun h => ?_, fun h1 h2 => ?_⟩ <;>
    first
      | exact ⟨rfl, rfl⟩
      | exact rfl
      | simp at h
      | simp at h1 h2

/-- Witness for C3 at the concrete unsafe-algorithm island. -/
theorem island_thread_safety_guard_witness :
    ((island_fixture_ts_none.evolveN 1).get).2
        = Option.some island_error.thread_safety_violation
      ∧ ((island_fixture_ts_none.evolveN 1).get).1.pop = island_fixture_ts_none.pop :=
  (island_thread_safety_guard island_fixture_ts_none rfl rfl).1 (Or.inl rfl)

end Pagmo

namespace Pagmo

/-- Every island built by `make_islands` starting at counter `c` has a
population seed at least `c`. -/
lemma make_islands_seed_lb (algo : Algorithm) (p : Population) :
    ∀ (n c : Nat) (s : Island), s ∈ make_islands algo p n c → c ≤ s.pop.seed
  | 0, _, s, h => absurd h (List.not_mem_nil s)
  | Nat.succ k, c, s, h => by
    rcases List.mem_cons.mp h with h1 | h2
    · subst h1
      exact Nat.le_refl c
    · have hlb := make_islands_seed_lb algo p k (c + 1) s h2
      omega

/-- The population seeds drawn by `make_islands` are pairwise distinct. -/
lemma make_islands_seeds_nodup (algo : Algorithm) (p : Population) :
    ∀ (n c : Nat), ((make_islands algo p n c).map (fun s => s.pop.seed)).Nodup
  | 0, _ => List.nodup_nil
  | Nat.succ k, c => by
    refine List.nodup_cons.mpr ⟨?_, make_islands_seeds_nodup algo p k (c + 1)⟩
    intro hmem
    obtain ⟨s, hs, hseed⟩ := List.mem_map.mp hmem
    have hlb := make_islands_seed_lb algo p k (c + 1) s hs
    replace hseed : s.pop.seed = c := hseed
    omega

end Pagmo

namespace Pagmo

/-- C4: for every archipelago and index `i`, the mutable `operator[]` and its
const overload succeed exactly when `i < size()` (raising the out-of-range
error exactly when `i >= size()`), and the two accessors check bounds
identically. -/
theorem archi_index_raises_iff_out_of_range (a : Archipelago) (i : Nat) :
    ((a.op_index i).isOk = true ↔ i < a.size)
      ∧ ((a.op_index_const i).isOk = true ↔ i < a.size)
      ∧ a.op_index i = a.op_index_const i := by
  refine ⟨?_, ?_, rfl⟩ <;>
  · simp only [Archipelago.op_index, Archipelago.op_index_const, Archipelago.size]
    split <;> simp_all [Except.isOk, Except.toBool]

/-- C5: an archipelago constructed from one shared algorithm/problem template
with `n` islands and no explicit seeds has pairwise distinct population seeds
across its islands. -/
theorem archi_default_seeds_distinct (n : Nat) (algo : Algorithm)
    (pop_template : Population) (counter : Nat) :
    ((Archipelago.construct n algo pop_template counter).islands.map
        (fun s => s.pop.seed)).Nodup :=
  make_islands_seeds_nodup algo pop_template n counter

/-- C6: serializing a quiescent island (empty queue, as after `get()`) and
deserializing into a fresh island yields an identical textual summary; the
same holds for an archipelago of quiescent islands. -/
theorem serialization_preserves_rendering :
    (∀ s : Island, s.queue = 0 →
        ((s.serialize).deserialize).to_string = s.to_string)
      ∧ (∀ a : Archipelago, (∀ s ∈ a.islands, s.queue = 0) →
        ((a.serialize).deserialize).to_string = a.to_string) := by
  have hisl : ∀ s : Island, s.queue = 0 →
      ((s.serialize).deserialize).to_string = s.to_string := by
    intro s hq
    unfold Island.to_string Island.serialize SerializedIsland.deserialize Island.busy
    rw [hq]
  refine ⟨hisl, ?_⟩
  intro a ha
  unfold Archipelago.to_string Archipelago.serialize SerializedArchipelago.deserialize
    Archipelago.size
  rw [List.map_map, List.map_map, List.length_map]
  have hmaps : a.islands.map (Island.to_string ∘ SerializedIsland.deserialize ∘ Island.serialize)
      = a.islands.map Island.to_string := by
    apply List.map_congr_left
    intro s hs
    exact hisl s (ha s hs)
  rw [hmaps]

/-- Witness for C6 at the concrete fixture island and two-island archipelago. -/
theorem serialization_preserves_rendering_witness :
    ((island_fixture.serialize).deserialize).to_string = island_fixture.to_string
      ∧ ((archi_fixture.serialize).deserialize).to_string = archi_fixture.to_string :=
  ⟨serialization_preserves_rendering.1 island_fixture rfl,
    serialization_preserves_rendering.2 archi_fixture (by decide)⟩

/-- C8: `busy()` is false on an idle island (before the first `evolve()`),
true immediately after `evolve(n)` with `n >= 1` is issued and before the
worker is observed (the submission schedule of a strictly-positive-cost
problem), and false again after a matching `wait()` or `get()`; an
archipelago is busy iff at least one of its islands is busy. -/
theorem busy_tracks_outstanding_tasks :
    (∀ s : Island, s.queue = 0 → s.busy = false)
      ∧ (∀ (s : Island) (n : Nat), 1 ≤ n → (s.evolveN n).busy = true)
      ∧ (∀ s : Island, (s.wait).busy = false ∧ ((s.get).1).busy = false)
      ∧ (∀ a : Archipelago, a.busy = true ↔ ∃ s ∈ a.islands, s.busy = true) := by
  refine ⟨?_, ?_, ?_, ?_⟩
  · intro s hq
    simp [Island.busy, hq]
  · intro s n hn
    obtain ⟨k, rfl⟩ : ∃ k, n = k + 1 := ⟨n - 1, by omega⟩
    have h1 := enqueue1_queue_pos (s.evolveN k)
    have h2 : ((s.evolveN k).enqueue1).queue ≠ 0 := by omega
    show ((s.evolveN k).enqueue1).busy = true
    simp [Island.busy, h2]
  · intro s
    constructor
    · simp [Island.busy, Island.wait, drain_queue]
    · simp [Island.busy, Island.get, drain_queue]
  · intro a
    simp [Archipelago.busy, List.any_eq_true]

/-- Witness for C8 at the concrete fixture island. -/
theorem busy_tracks_outstanding_tasks_witness :
    island_fixture.busy = false ∧ (island_fixture.evolveN 1).busy = true
      ∧ ((island_fixture.evolveN 1).wait).busy = false :=
  ⟨busy_tracks_outstanding_tasks.1 island_fixture rfl,
    busy_tracks_outstanding_tasks.2.1 island_fixture 1 (by decide),
    (busy_tracks_outstanding_tasks.2.2.1 (island_fixture.evolveN 1)).1⟩

/-- C9: moving from an archipelago transfers ownership of all its islands to
the destination (which holds the source's former island sequence, hence its
size and contents) and leaves the moved-from source at size 0 with nothing
outstanding. -/
theorem archi_move_transfers_islands (a : Archipelago) :
    (a.move_from).1.islands = a.islands
      ∧ (a.move_from).2.size = 0
      ∧ (a.move_from).2.busy = false :=
  ⟨rfl, rfl, rfl⟩

end Pagmo
